import Mathlib

/-!
# Verification of the DevilAgent chat core (src/main.py)

A shallow embedding of the search-augmented chat agent in `src/main.py`:
the string helpers mirror the Python string operations used by the code
(per-code-point, ASCII case folding), dictionaries are association lists
with Python `dict` insertion/update semantics (insertion order preserved,
assignment to an existing key overwrites its value in place), and the
external services (LLM structured extraction, LLM validation, web search,
streaming generation) are oracles supplied through an environment record.
-/

namespace DevilAgent

/-! ## Python string primitives

Python strings are sequences of code points; we model them through
`String.data : List Char`.  `pyLower` is `str.lower()` restricted to
ASCII case folding, `pyContains` is the `in` substring test, `pySplit`
is `str.split(sep)` with an explicit separator, `pyStrip` is
`str.strip()`, and `pyTake` is the slice `s[:n]`. -/

def pyLower (s : String) : String := ⟨s.data.map Char.toLower⟩

/-- Worker for the substring test: does `pat` occur as a prefix of some
suffix of the second argument? -/
def containsGo (pat : List Char) : List Char → Bool
  | [] => List.isPrefixOf pat []
  | c :: rest => List.isPrefixOf pat (c :: rest) || containsGo pat rest

def pyContains (sub s : String) : Bool := containsGo sub.data s.data

def pyStartswith (pre s : String) : Bool := List.isPrefixOf pre.data s.data

def pyTake (s : String) (n : Nat) : String := ⟨s.data.take n⟩

def pyStrip (s : String) : String :=
  ⟨((s.data.dropWhile Char.isWhitespace).reverse.dropWhile Char.isWhitespace).reverse⟩

/-- Fuel-indexed worker for `pySplit`; the fuel is an upper bound on the
number of characters still to be consumed, so the recursion is structural
and kernel-reducible. -/
def pySplitGo (sep : List Char) : Nat → List Char → List Char → List (List Char)
  | _, [], cur => [cur.reverse]
  | 0, s, cur => [cur.reverse ++ s]
  | fuel + 1, c :: rest, cur =>
    if List.isPrefixOf sep (c :: rest) then
      cur.reverse :: pySplitGo sep fuel (List.drop (sep.length - 1) rest) []
    else
      pySplitGo sep fuel rest (c :: cur)

/-- Python `s.split(sep)` for a non-empty separator: non-overlapping
occurrences left to right, keeping empty fields. -/
def pySplit (s sep : String) : List String :=
  (pySplitGo sep.data s.data.length s.data []).map (fun l => ⟨l⟩)

/-- Python `sep.join(parts)`. -/
def joinSep (sep : String) : List String → String
  | [] => ""
  | [x] => x
  | x :: y :: xs => x ++ sep ++ joinSep sep (y :: xs)

/-! ## Python dict as an association list

`dictInsert d k v` models `d[k] = v`: an existing key keeps its position
but its value is overwritten; a new key is appended.  `dictUpdate`
models `d.update(r)`, `pyDict` models `dict(pairs)` (built by repeated
assignment, e.g. `dict(zip(queries, results))`). -/

def dictMem (d : List (String × String)) (k : String) : Bool :=
  d.any (fun p => p.1 = k)

def dictLookup (d : List (String × String)) (k : String) : Option String :=
  (d.find? (fun p => p.1 = k)).map (fun p => p.2)

def dictInsert (d : List (String × String)) (k v : String) : List (String × String) :=
  if dictMem d k then
    d.map (fun p => if p.1 = k then (k, v) else p)
  else
    d ++ [(k, v)]

def dictUpdate (d : List (String × String)) : List (String × String) → List (String × String)
  | [] => d
  | (k, v) :: rest => dictUpdate (dictInsert d k v) rest

def pyDict (l : List (String × String)) : List (String × String) :=
  dictUpdate [] l

/-! ## Skill metadata and agent state (`SkillMetadata`, `DevilAgent.__init__`) -/

structure SkillMetadata where
  name : String
  description : String
  path : String
  content : String
  license : Option String
  compatibility : Option String
  metadata : List (String × String)
  allowed_tools : List String
deriving DecidableEq, Repr

inductive Message where
  | system (content : String)
  | human (content : String)
  | ai (content : String)
deriving DecidableEq, Repr

structure AgentState where
  skills_metadata : List SkillMetadata
  devil_mode : Bool
  use_web_search : Bool
  active_skill : Option SkillMetadata
  history : List Message
deriving DecidableEq, Repr

/-! ## Skill detection and toggles (`_detect_skill`, `_load_skill_by_name`,
`set_mode`, `set_search`, `clear`) -/

def codeKeywords : List String := ["def ", "class ", "import ", "function", "```"]

def docKeywords : List String :=
  ["paper", "report", "proposal", "design", "analysis",
   "hypothesis", "conclusion", "thesis", "research", "study"]

def detect_skill (text : String) : String :=
  if codeKeywords.any (fun kw => pyContains kw (pyLower text)) then
    "code-checker"
  else if docKeywords.any (fun kw => pyContains kw (pyLower text)) then
    "logic-auditor"
  else
    "general-reviewer"

def load_skill_by_name (skills : List SkillMetadata) (name : String) : Option SkillMetadata :=
  skills.find? (fun s => s.name = name)

def set_mode (st : AgentState) (devil : Bool) : AgentState :=
  { st with devil_mode := devil, active_skill := none }

def set_search (st : AgentState) (enabled : Bool) : AgentState :=
  { st with use_web_search := enabled }

def clearState (st : AgentState) : AgentState :=
  { st with history := [], active_skill := none }

/-- The `active_skill` side effect of `_build_prompt`: in devil mode, if no
skill is active and the input is non-empty, the detected skill is looked up
and stored (possibly `none` when the registry lacks it). -/
def build_prompt_skill (st : AgentState) (user_input : String) : Option SkillMetadata :=
  if st.devil_mode then
    if user_input ≠ "" ∧ st.active_skill = none then
      load_skill_by_name st.skills_metadata (detect_skill user_input)
    else st.active_skill
  else st.active_skill

/-! ## Web search (`_search_web`, `multi_search`)

The duckduckgo call is an external service; it is modelled as a raw
outcome: an exception message, or a list of result records (an empty
list also covers the `None` return).  `search_web` is the
exception-isolating wrapper `_search_web`, `multi_search` is the
concurrent fan-out whose results are zipped back in query order. -/

structure SearchResult where
  title : String
  body : String
  href : String
deriving DecidableEq, Repr

/-- The `f"- {title}: {body[:200]}...\n  Source: {href}"` line built for one
search hit. -/
def formatResult (r : SearchResult) : String :=
  "- " ++ r.title ++ ": " ++ pyTake r.body 200 ++ "...\n  Source: " ++ r.href

/-- `_search_web`: catch any exception and convert it to a placeholder,
convert an empty/None result list to a `[No results: ...]` placeholder,
otherwise join the formatted hits with newlines. -/
def search_web (q : String) (raw : Except String (List SearchResult)) : String :=
  match raw with
  | .error e => "[Search failed: " ++ e ++ "]"
  | .ok [] => "[No results: " ++ q ++ "]"
  | .ok rs => joinSep "\n" (rs.map formatResult)

/-- `multi_search`: `dict(zip(queries, await gather(...)))`.  `gather`
preserves the order of its arguments, so the pairs are in query order;
`dict` collapses duplicate queries by overwriting. -/
def multi_search (search : String → Except String (List SearchResult))
    (queries : List String) : List (String × String) :=
  pyDict (queries.map (fun q => (q, search_web q (search q))))

/-! ## The retrieve-validate loop (`DevilAgent.chat`, lines 351-401)

External nondeterminism is captured by a `ChatEnv`: the extracted query
list (`[]` also models extraction failure), the raw search outcome for
each query at each loop iteration (web search is a fresh network call
per dispatch), the validation verdict produced after each iteration
(`none` models an adapter failure or a null parse), and the stream of
chunks produced by `llm.astream` together with an optional exception
raised after those chunks. -/

structure SearchValidation where
  is_satisfied : Bool
  reason : String
  new_queries : List String
deriving DecidableEq, Repr

structure ChatEnv where
  extractedQueries : List String
  searchAt : Nat → String → Except String (List SearchResult)
  validateAt : Nat → Option SearchValidation
  streamChunks : List String
  streamError : Option String

/-- One pass of the `for i in range(max_iterations)` loop.  Arguments:
remaining fuel, current index `i`, the `iteration_count` so far, the
current query list and the accumulated result map.  Returns the final
map, the final `iteration_count`, and the `[STAGE]` events yielded. -/
def searchLoopGo (env : ChatEnv) :
    Nat → Nat → Nat → List String → List (String × String) →
    List (String × String) × Nat × List String
  | 0, _, itCount, _, acc => (acc, itCount, [])
  | fuel + 1, i, itCount, queries, acc =>
    if queries.isEmpty then (acc, itCount, [])
    else
      let results := multi_search (env.searchAt i) queries
      let acc1 := dictUpdate acc results
      let evs := ["[STAGE]Searching: " ++ joinSep ", " queries ++ "\n",
                  "[STAGE]Found " ++ toString results.length ++ " results, validating...\n"]
      match env.validateAt i with
      | none => (acc1, i + 1, evs)
      | some v =>
        if v.is_satisfied then (acc1, i + 1, evs)
        else
          let qs1 := v.new_queries
          let evs1 := if qs1.isEmpty then evs else evs ++ ["[STAGE]Refining search...\n"]
          let rest := searchLoopGo env fuel (i + 1) (i + 1) qs1 acc1
          (rest.1, rest.2.1, evs1 ++ rest.2.2)

/-- The whole ReACT loop: `max_iterations = 3`, starting at `i = 0` with
`iteration_count = 0`, the extracted queries and an empty result map. -/
def runSearchLoop (env : ChatEnv) : List (String × String) × Nat × List String :=
  searchLoopGo env 3 0 0 env.extractedQueries []

/-! ## Source extraction and the chat generator (lines 383-422) -/

/-- The URLs contributed by one line of a result text: lines containing
`"Source: "` yield the stripped text after its last occurrence, provided
it is non-empty and starts with `"http"`. -/
def extractSourcesLine (line : String) : List String :=
  if pyContains "Source: " line then
    let url := pyStrip ((pySplit line "Source: ").getLastD "")
    if url ≠ "" ∧ pyStartswith "http" url then [url] else []
  else []

/-- `search_sources`: iterate the accumulated map in insertion order and
the lines of each result top to bottom. -/
def extractSources (m : List (String × String)) : List String :=
  m.flatMap (fun p => (pySplit p.2 "\n").flatMap extractSourcesLine)

def offlineNotice : String :=
  "\n\n---\n‚ö†Ô∏è *Response generated without web search. Information may not be current.*"

/-- The trailing references block: header plus the first five sources,
1-indexed. -/
def refEvents (sources : List String) : List String :=
  "\n\n---\n**References:**\n" ::
    (sources.take 5).enum.map (fun p => "[" ++ toString (p.1 + 1) ++ "]: " ++ p.2 ++ "\n")

/-- The `[STAGE]` events yielded before generation starts. -/
def chatPreEvents (env : ChatEnv) (ws : Bool) : List String :=
  if ws then
    "[STAGE]Extracting search queries...\n" :: (runSearchLoop env).2.2
      ++ (if (runSearchLoop env).1.isEmpty then [] else ["[STAGE]Generating response...\n"])
  else ["[STAGE]Generating response (offline)...\n"]

/-- The `search_sources` list collected by the turn (populated only when
search ran and produced a non-empty result map). -/
def chatSources (env : ChatEnv) (ws : Bool) : List String :=
  if ws then
    if (runSearchLoop env).1.isEmpty then [] else extractSources (runSearchLoop env).1
  else []

/-- `DevilAgent.chat`: returns the full list of yielded fragments and the
post-turn agent state.  `history` is reset at entry; the user message is
appended before the `try` block, the assistant message only after a
successful stream; an exception from the stream is converted into a
single trailing error fragment. -/
def chat (st : AgentState) (env : ChatEnv) (user_input : String) :
    List String × AgentState :=
  let pre := chatPreEvents env st.use_web_search
  let sources := chatSources env st.use_web_search
  let newSkill := build_prompt_skill { st with history := [] } user_input
  let chunks := env.streamChunks.filter (fun c => c ≠ "")
  let full := joinSep "" chunks
  match env.streamError with
  | some e =>
    (pre ++ chunks ++ ["\n[Error: " ++ e ++ "]"],
     { st with history := [Message.human user_input], active_skill := newSkill })
  | none =>
    let tail :=
      if !st.use_web_search then [offlineNotice]
      else if sources.isEmpty then [] else refEvents sources
    (pre ++ chunks ++ tail,
     { st with history := [Message.human user_input, Message.ai full],
               active_skill := newSkill })

/-- Spec-side rendering of the references list: "up to the first 5 URLs in
discovery order, 1-indexed" — used to compare the code's `enumerate`-based
rendering against the spec's words. -/
def numberedRefs (n : Nat) : List String → List String
  | [] => []
  | u :: us => ("[" ++ toString n ++ "]: " ++ u ++ "\n") :: numberedRefs (n + 1) us

/-! ## Concrete fixtures used by the witness theorems -/

/-- A search stub where query "a" raises and query "b" returns no hits. -/
def searchStub : String → Except String (List SearchResult) :=
  fun q => if q = "a" then .error "boom" else .ok []

/-- An environment whose first iteration is judged unsatisfied with the same
query re-issued, and whose second search call returns a different hit:
exercises the value-overwrite behaviour of `dict.update`. -/
def envRequery : ChatEnv :=
  { extractedQueries := ["q"]
    searchAt := fun i _ =>
      if i = 0 then .ok [⟨"t1", "b1", "http://a"⟩] else .ok [⟨"t2", "b2", "http://b"⟩]
    validateAt := fun i => if i = 0 then some ⟨false, "stale", ["q"]⟩ else some ⟨true, "", []⟩
    streamChunks := []
    streamError := none }

/-- An environment whose validator is satisfied immediately. -/
def envStopEarly : ChatEnv :=
  { extractedQueries := ["q"]
    searchAt := fun _ _ => .ok [⟨"t", "b", "http://a"⟩]
    validateAt := fun _ => some ⟨true, "good", []⟩
    streamChunks := ["hello"]
    streamError := none }

/-- An environment for a successful searched turn with one source URL. -/
def envRefs : ChatEnv :=
  { extractedQueries := ["q"]
    searchAt := fun _ _ => .ok [⟨"t", "b", "http://a"⟩]
    validateAt := fun _ => some ⟨true, "", []⟩
    streamChunks := ["hello", ""]
    streamError := none }

/-- An environment whose stream raises after one chunk. -/
def envErr : ChatEnv :=
  { extractedQueries := []
    searchAt := fun _ _ => .ok []
    validateAt := fun _ => none
    streamChunks := ["halfway"]
    streamError := some "boom" }

/-- An agent with web search enabled. -/
def agentWeb : AgentState :=
  { skills_metadata := [], devil_mode := false, use_web_search := true,
    active_skill := none, history := [] }

/-- An agent with web search disabled. -/
def agentOffline : AgentState :=
  { skills_metadata := [], devil_mode := false, use_web_search := false,
    active_skill := none, history := [Message.human "old"] }

/-! ## Helper lemmas -/

theorem containsGo_iff (pat s : List Char) : containsGo pat s = true ↔ pat <:+: s := by
  induction s with
  | nil =>
    simp [containsGo, List.isPrefixOf_iff_prefix, List.infix_nil, List.prefix_nil]
  | cons c rest ih =>
    simp [containsGo, List.isPrefixOf_iff_prefix, List.infix_cons_iff, ih]

theorem pyContains_iff (sub s : String) : pyContains sub s = true ↔ sub.data <:+: s.data :=
  containsGo_iff sub.data s.data

theorem pyContains_of_infix {pat sub s : String} (h1 : pat.data <:+: sub.data)
    (h2 : pyContains sub s = true) : pyContains pat s = true := by
  rw [pyContains_iff] at h2 ⊢
  exact h1.trans h2

theorem pyContains_pyLower {sub s : String}
    (hfix : sub.data.map Char.toLower = sub.data)
    (h : pyContains sub s = true) : pyContains sub (pyLower s) = true := by
  rw [pyContains_iff] at h ⊢
  have hmap := h.map Char.toLower
  rwa [hfix] at hmap

theorem dictMem_cons {p : String × String} {rest : List (String × String)} {k : String} :
    dictMem (p :: rest) k = (decide (p.1 = k) || dictMem rest k) := by
  simp [dictMem]

theorem dictMem_dictInsert_of_mem {d : List (String × String)} {k : String}
    (k' v : String) (h : dictMem d k = true) : dictMem (dictInsert d k' v) k = true := by
  unfold dictInsert
  by_cases hc : dictMem d k' = true
  · rw [if_pos hc]
    rcases List.any_eq_true.mp h with ⟨p, hp, hpk⟩
    refine List.any_eq_true.mpr ⟨(fun p => if p.1 = k' then (k', v) else p) p,
      List.mem_map_of_mem _ hp, ?_⟩
    by_cases hpk' : p.1 = k'
    · simp only [if_pos hpk']
      simp only [decide_eq_true_eq] at hpk ⊢
      rw [← hpk']; exact hpk
    · simp only [if_neg hpk']; exact hpk
  · rw [if_neg hc]
    simp only [dictMem] at h
    simp only [dictMem, List.any_append, h, Bool.true_or]

theorem dictMem_dictUpdate_of_mem {k : String} :
    ∀ (r d : List (String × String)), dictMem d k = true → dictMem (dictUpdate d r) k = true := by
  intro r
  induction r with
  | nil => intro d h; exact h
  | cons p rest ih =>
    intro d h
    exact ih (dictInsert d p.1 p.2) (dictMem_dictInsert_of_mem p.1 p.2 h)

theorem find?_map_overwrite (k v : String) :
    ∀ d : List (String × String), dictMem d k = true →
      List.find? (fun p => decide (p.1 = k)) (d.map (fun p => if p.1 = k then (k, v) else p)) =
        some (k, v) := by
  intro d
  induction d with
  | nil => intro h; simp [dictMem] at h
  | cons p rest ih =>
    intro h
    by_cases hpk : p.1 = k
    · simp [if_pos hpk, List.find?_cons]
    · have h' : dictMem rest k = true := by
        rw [dictMem_cons] at h
        rcases Bool.or_eq_true_iff.mp h with h1 | h1
        · exact absurd (by simpa using h1) hpk
        · exact h1
      have hb : (decide (p.1 = k)) = false := by simp [hpk]
      simp only [List.map_cons, if_neg hpk, List.find?_cons, hb]
      exact ih h'

theorem find?_append_single (k v : String) :
    ∀ d : List (String × String), dictMem d k = false →
      List.find? (fun p => decide (p.1 = k)) (d ++ [(k, v)]) = some (k, v) := by
  intro d
  induction d with
  | nil => simp [List.find?_cons]
  | cons p rest ih =>
    intro h
    rw [dictMem_cons, Bool.or_eq_false_iff] at h
    simp only [List.cons_append, List.find?_cons, h.1]
    exact ih h.2

theorem dictLookup_dictInsert_self (d : List (String × String)) (k v : String) :
    dictLookup (dictInsert d k v) k = some v := by
  unfold dictInsert dictLookup
  by_cases hc : dictMem d k = true
  · rw [if_pos hc, find?_map_overwrite k v d hc]; rfl
  · rw [if_neg hc, find?_append_single k v d (by revert hc; cases dictMem d k <;> simp)]; rfl

theorem dictInsert_of_not_mem {d : List (String × String)} {k : String} (v : String)
    (h : dictMem d k = false) : dictInsert d k v = d ++ [(k, v)] := by
  unfold dictInsert
  rw [if_neg (by simp [h])]

theorem dictUpdate_eq_append :
    ∀ (r d : List (String × String)),
      (∀ p ∈ r, dictMem d p.1 = false) → (r.map Prod.fst).Nodup →
      dictUpdate d r = d ++ r := by
  intro r
  induction r with
  | nil => intro d _ _; simp [dictUpdate]
  | cons p rest ih =>
    intro d hdisj hnd
    have hd : dictMem d p.1 = false := hdisj p (List.mem_cons_self p rest)
    have step : dictUpdate d (p :: rest) = dictUpdate (d ++ [p]) rest := by
      show dictUpdate (dictInsert d p.1 p.2) rest = _
      rw [dictInsert_of_not_mem p.2 hd]
    rw [step, ih (d ++ [p])]
    · simp
    · intro q hq
      have hq0 : dictMem d q.1 = false := hdisj q (List.mem_cons_of_mem p hq)
      have hq1 : q.1 ≠ p.1 := by
        simp only [List.map_cons, List.nodup_cons] at hnd
        intro he
        exact hnd.1 (he ▸ List.mem_map_of_mem Prod.fst hq)
      unfold dictMem at hq0 ⊢
      simp only [List.any_append, hq0, Bool.false_or, List.any_cons, List.any_nil,
        Bool.or_false, decide_eq_false_iff_not]
      exact fun h => hq1 h.symm
    · simp only [List.map_cons, List.nodup_cons] at hnd
      exact hnd.2

theorem pyDict_eq_self (l : List (String × String)) (h : (l.map Prod.fst).Nodup) :
    pyDict l = l := by
  unfold pyDict
  rw [dictUpdate_eq_append l [] (by intro p _; rfl) h]
  simp

theorem dictLookup_map_self (f : String → String) :
    ∀ (qs : List String) (q : String), q ∈ qs →
      dictLookup (qs.map (fun x => (x, f x))) q = some (f q) := by
  intro qs
  induction qs with
  | nil => intro q hq; simp at hq
  | cons x xs ih =>
    intro q hq
    by_cases hxq : x = q
    · simp [dictLookup, List.find?_cons, hxq]
    · have hb : (decide (x = q)) = false := by simp [hxq]
      simp only [dictLookup, List.map_cons, List.find?_cons, hb]
      refine ih q ?_
      rcases List.mem_cons.mp hq with h | h
      · exact absurd h.symm hxq
      · exact h

theorem multi_search_eq (search : String → Except String (List SearchResult))
    (qs : List String) (h : qs.Nodup) :
    multi_search search qs = qs.map (fun q => (q, search_web q (search q))) := by
  unfold multi_search
  apply pyDict_eq_self
  have : (List.map Prod.fst (qs.map fun q => (q, search_web q (search q)))) = qs := by
    rw [List.map_map]
    exact List.map_id qs
  rw [this]; exact h

/-- The validation outcome at index `j` terminates the loop: the adapter
failed / parsed to null, or the verdict is satisfied. -/
def validStops (env : ChatEnv) (j : Nat) : Prop :=
  env.validateAt j = none ∨ ∃ v, env.validateAt j = some v ∧ v.is_satisfied = true

theorem searchLoopGo_count_le (env : ChatEnv) :
    ∀ (fuel i c : Nat) (qs : List String) (acc : List (String × String)),
      (searchLoopGo env fuel i c qs acc).2.1 ≤ max c (i + fuel) := by
  intro fuel
  induction fuel with
  | zero => intro i c qs acc; simp [searchLoopGo]
  | succ fuel ih =>
    intro i c qs acc
    unfold searchLoopGo
    by_cases hq : qs.isEmpty
    · rw [if_pos hq]; exact Nat.le_max_left _ _
    · rw [if_neg hq]
      cases hval : env.validateAt i with
      | none => simp only; omega
      | some v =>
        by_cases hsat : v.is_satisfied
        · simp only [if_pos hsat]; omega
        · simp only [if_neg hsat]
          have := ih (i + 1) (i + 1) v.new_queries
            (dictUpdate acc (multi_search (env.searchAt i) qs))
          omega

theorem searchLoopGo_count_le_of_stop (env : ChatEnv) {j : Nat} (hstop : validStops env j) :
    ∀ (fuel i c : Nat) (qs : List String) (acc : List (String × String)),
      i ≤ j → c ≤ j + 1 →
      (searchLoopGo env fuel i c qs acc).2.1 ≤ j + 1 := by
  intro fuel
  induction fuel with
  | zero => intro i c qs acc _ hc; simpa [searchLoopGo] using hc
  | succ fuel ih =>
    intro i c qs acc hij hc
    unfold searchLoopGo
    by_cases hq : qs.isEmpty
    · rw [if_pos hq]; exact hc
    · rw [if_neg hq]
      cases hval : env.validateAt i with
      | none => simp only; omega
      | some v =>
        by_cases hsat : v.is_satisfied
        · simp only [if_pos hsat]; omega
        · simp only [if_neg hsat]
          have hij' : i ≠ j := by
            intro he
            rcases hstop with hn | ⟨w, hw, hws⟩
            · rw [he] at hval; rw [hval] at hn; exact Option.noConfusion hn
            · rw [he] at hval; rw [hval] at hw
              exact hsat (by rw [← Option.some.injEq v w |>.mp hw] at hws; exact hws)
          have := ih (i + 1) (i + 1) v.new_queries
            (dictUpdate acc (multi_search (env.searchAt i) qs))
            (by omega) (by omega)
          simpa using this

theorem searchLoopGo_keys_mono (env : ChatEnv) {k : String} :
    ∀ (fuel i c : Nat) (qs : List String) (acc : List (String × String)),
      dictMem acc k = true →
      dictMem (searchLoopGo env fuel i c qs acc).1 k = true := by
  intro fuel
  induction fuel with
  | zero => intro i c qs acc h; simpa [searchLoopGo] using h
  | succ fuel ih =>
    intro i c qs acc h
    unfold searchLoopGo
    by_cases hq : qs.isEmpty
    · rw [if_pos hq]; exact h
    · rw [if_neg hq]
      have hupd : dictMem (dictUpdate acc (multi_search (env.searchAt i) qs)) k = true :=
        dictMem_dictUpdate_of_mem _ acc h
      cases hval : env.validateAt i with
      | none => simpa using hupd
      | some v =>
        by_cases hsat : v.is_satisfied
        · simpa [if_pos hsat] using hupd
        · simp only [if_neg hsat]
          exact ih (i + 1) (i + 1) v.new_queries _ hupd

theorem enumFrom_map_ref :
    ∀ (l : List String) (n : Nat),
      (List.enumFrom n l).map (fun p => "[" ++ toString (p.1 + 1) ++ "]: " ++ p.2 ++ "\n") =
        numberedRefs (n + 1) l := by
  intro l
  induction l with
  | nil => intro n; rfl
  | cons u us ih =>
    intro n
    simp only [List.enumFrom, List.map_cons, numberedRefs]
    exact congrArg _ (ih (n + 1))

theorem refEvents_eq_numberedRefs (sources : List String) :
    refEvents sources = "\n\n---\n**References:**\n" :: numberedRefs 1 (sources.take 5) := by
  unfold refEvents
  rw [show (sources.take 5).enum = List.enumFrom 0 (sources.take 5) from rfl]
  rw [enumFrom_map_ref]

theorem numberedRefs_length : ∀ (l : List String) (n : Nat), (numberedRefs n l).length = l.length := by
  intro l
  induction l with
  | nil => intro n; rfl
  | cons u us ih => intro n; simp [numberedRefs, ih]

theorem mem_extractSources {m : List (String × String)} {q r line : String}
    (hm : (q, r) ∈ m) (hl : line ∈ pySplit r "\n")
    (hc : pyContains "Source: " line = true)
    (hne : pyStrip ((pySplit line "Source: ").getLastD "") ≠ "")
    (hp : pyStartswith "http" (pyStrip ((pySplit line "Source: ").getLastD "")) = true) :
    pyStrip ((pySplit line "Source: ").getLastD "") ∈ extractSources m := by
  unfold extractSources
  rw [List.mem_flatMap]
  refine ⟨(q, r), hm, ?_⟩
  rw [List.mem_flatMap]
  refine ⟨line, hl, ?_⟩
  simp only [List.getLastD_eq_getLast?] at hne hp
  simp [extractSourcesLine, hc, hne, hp]

/-! ## Claim theorems -/

/-- Claim C9: `set_mode d` sets `devil_mode` to `d` and unconditionally
clears `active_skill`, leaving `history`, `use_web_search` and the skill
registry untouched; `set_search e` sets `use_web_search` and changes
nothing else; hence the sequence `set_mode true; set_mode false;
set_mode true` leaves `active_skill` cleared. -/
theorem set_mode_set_search_effects (st : AgentState) (d e : Bool) :
    ((set_mode st d).devil_mode = d ∧ (set_mode st d).active_skill = none ∧
      (set_mode st d).history = st.history ∧
      (set_mode st d).use_web_search = st.use_web_search ∧
      (set_mode st d).skills_metadata = st.skills_metadata) ∧
    ((set_search st e).use_web_search = e ∧
      (set_search st e).devil_mode = st.devil_mode ∧
      (set_search st e).active_skill = st.active_skill ∧
      (set_search st e).history = st.history ∧
      (set_search st e).skills_metadata = st.skills_metadata) ∧
    (set_mode (set_mode (set_mode st true) false) true).active_skill = none :=
  ⟨⟨rfl, rfl, rfl, rfl, rfl⟩, ⟨rfl, rfl, rfl, rfl, rfl⟩, rfl⟩

/-- Claim C10: any input containing a code keyword (case-insensitively, the
input being lowercased before the tests) classifies to "code-checker",
regardless of which document keywords it also contains. -/
theorem detect_skill_code_precedence (s kw : String) (hmem : kw ∈ codeKeywords)
    (h : pyContains kw (pyLower s) = true) : detect_skill s = "code-checker" := by
  unfold detect_skill
  rw [if_pos (List.any_eq_true.mpr ⟨kw, hmem, h⟩)]

/-- Witness for C10: an upper-case input containing both a code keyword and
document keywords still classifies to "code-checker". -/
theorem detect_skill_code_precedence_witness :
    detect_skill "DEF FOO(): see the analysis in the paper" = "code-checker" :=
  detect_skill_code_precedence "DEF FOO(): see the analysis in the paper" "def "
    (by decide) (by decide)

/-- Counterexample to claim C8 as stated: "def research proposal" contains
the substring "research proposal" yet does not classify to the logic-audit
skill, because code keywords are tested first. -/
theorem detect_skill_doc_claim_counterexample :
    pyContains "research proposal" "def research proposal" = true ∧
    detect_skill "def research proposal" = "code-checker" ∧
    detect_skill "def research proposal" ≠ "logic-auditor" := by
  refine ⟨by decide, by decide, by decide⟩

/-- Claim C8 (amended): inputs containing "def foo():" classify to
"code-checker"; inputs containing "research proposal" and no code keyword
classify to "logic-auditor"; inputs containing no code keyword and no
document keyword classify to "general-reviewer". -/
theorem detect_skill_classification (s : String) :
    (pyContains "def foo():" s = true → detect_skill s = "code-checker") ∧
    (pyContains "research proposal" s = true →
      codeKeywords.any (fun kw => pyContains kw (pyLower s)) = false →
      detect_skill s = "logic-auditor") ∧
    (codeKeywords.any (fun kw => pyContains kw (pyLower s)) = false →
      docKeywords.any (fun kw => pyContains kw (pyLower s)) = false →
      detect_skill s = "general-reviewer") := by
  refine ⟨?_, ?_, ?_⟩
  · intro h
    have h1 : pyContains "def " s = true := pyContains_of_infix (by decide) h
    have h2 : pyContains "def " (pyLower s) = true := pyContains_pyLower (by decide) h1
    unfold detect_skill
    rw [if_pos (List.any_eq_true.mpr ⟨"def ", by decide, h2⟩)]
  · intro h hcode
    have h1 : pyContains "research" s = true := pyContains_of_infix (by decide) h
    have h2 : pyContains "research" (pyLower s) = true := pyContains_pyLower (by decide) h1
    unfold detect_skill
    rw [if_neg (by simp [hcode]), if_pos (List.any_eq_true.mpr ⟨"research", by decide, h2⟩)]
  · intro hcode hdoc
    unfold detect_skill
    rw [if_neg (by simp [hcode]), if_neg (by simp [hdoc])]

/-- Witness for the amended C8: the three branches at concrete inputs. -/
theorem detect_skill_classification_witness :
    detect_skill "def foo():" = "code-checker" ∧
    detect_skill "research proposal" = "logic-auditor" ∧
    detect_skill "hello there" = "general-reviewer" :=
  ⟨(detect_skill_classification "def foo():").1 (by decide),
   (detect_skill_classification "research proposal").2.1 (by decide) (by decide),
   (detect_skill_classification "hello there").2.2 (by decide) (by decide)⟩

/-- Counterexample to claim C1 as stated: in `envRequery` the query "q" is
re-issued on the second iteration and the merge (`dict.update`) replaces
the entry's value with the fresh search result, so the entry present after
iteration 1 does not keep its value. -/
theorem searchLoop_requery_overwrites_counterexample :
    dictMem (dictUpdate [] (multi_search (envRequery.searchAt 0) envRequery.extractedQueries))
        "q" = true ∧
    dictLookup (runSearchLoop envRequery).1 "q" ≠
      dictLookup (dictUpdate [] (multi_search (envRequery.searchAt 0) envRequery.extractedQueries))
        "q" := by
  refine ⟨by decide, by decide⟩

/-- Claim C1 (amended): across the retrieval loop's iterations, the key set
of the accumulated map only grows — any key present when an iteration
starts is present in the final map, and no key is ever deleted — but
assigning an existing key (a re-issued query) overwrites its value with
the freshly fetched result. -/
theorem searchLoop_result_map_grows (env : ChatEnv) (fuel i c : Nat)
    (qs : List String) (acc : List (String × String)) (k : String)
    (h : dictMem acc k = true) :
    dictMem (searchLoopGo env fuel i c qs acc).1 k = true ∧
    (∀ d v, dictLookup (dictInsert d k v) k = some v) :=
  ⟨searchLoopGo_keys_mono env fuel i c qs acc h,
   fun d v => dictLookup_dictInsert_self d k v⟩

/-- Witness for the amended C1: resume the loop of `envRequery` after its
first iteration; the key "q" survives to the end, and inserting a new
value at an existing key overwrites it. -/
theorem searchLoop_result_map_grows_witness :
    dictMem (searchLoopGo envRequery 2 1 1 ["q"]
      (dictUpdate [] (multi_search (envRequery.searchAt 0) ["q"]))).1 "q" = true ∧
    dictLookup (dictInsert [("q", "old")] "q" "new") "q" = some "new" := by
  have h := searchLoop_result_map_grows envRequery 2 1 1 ["q"]
    (dictUpdate [] (multi_search (envRequery.searchAt 0) ["q"])) "q" (by decide)
  exact ⟨h.1, h.2 [("q", "old")] "new"⟩

/-- Claim C2: for pairwise-distinct queries, `multi_search` returns one
entry per query; a raising query's entry is the `[Search failed: ...]`
placeholder and an empty result list yields `[No results: ...]`, while
every sibling query keeps its own independent result. -/
theorem multi_search_isolated_failures (search : String → Except String (List SearchResult))
    (qs : List String) (h : qs.Nodup) :
    (multi_search search qs).length = qs.length ∧
    (∀ q ∈ qs, dictLookup (multi_search search qs) q = some (search_web q (search q))) ∧
    (∀ q ∈ qs, ∀ e, search q = .error e →
      dictLookup (multi_search search qs) q = some ("[Search failed: " ++ e ++ "]")) ∧
    (∀ q ∈ qs, search q = .ok [] →
      dictLookup (multi_search search qs) q = some ("[No results: " ++ q ++ "]")) := by
  have heq := multi_search_eq search qs h
  refine ⟨?_, ?_, ?_, ?_⟩
  · rw [heq, List.length_map]
  · intro q hq; rw [heq]; exact dictLookup_map_self _ qs q hq
  · intro q hq e he
    rw [heq, dictLookup_map_self _ qs q hq]
    simp [search_web, he]
  · intro q hq he
    rw [heq, dictLookup_map_self _ qs q hq]
    simp [search_web, he]

/-- Witness for C2: with `searchStub`, query "a" raises and query "b"
returns nothing; both entries are present, one per query. -/
theorem multi_search_isolated_failures_witness :
    (multi_search searchStub ["a", "b"]).length = 2 ∧
    dictLookup (multi_search searchStub ["a", "b"]) "a" = some "[Search failed: boom]" ∧
    dictLookup (multi_search searchStub ["a", "b"]) "b" = some "[No results: b]" := by
  have h := multi_search_isolated_failures searchStub ["a", "b"] (by decide)
  refine ⟨h.1, ?_, ?_⟩
  · exact h.2.2.1 "a" (by decide) "boom" rfl
  · exact h.2.2.2 "b" (by decide) rfl

/-- Claim C3: the retrieve-validate loop executes at most 3 iterations, for
every environment — in particular even when the validator is never
satisfied and always supplies new queries. -/
theorem searchLoop_at_most_three_iterations (env : ChatEnv) :
    (runSearchLoop env).2.1 ≤ 3 := by
  have h := searchLoopGo_count_le env 3 0 0 env.extractedQueries []
  simpa [runSearchLoop] using h

/-- Claim C4: if the validation of iteration `k` (1-based) fails, parses to
null, or is satisfied, the loop's total iteration count is at most `k`:
no iteration `k + 1` occurs and there is no retry on validator failure. -/
theorem searchLoop_stops_on_validator_stop (env : ChatEnv) (k : Nat) (hk : 1 ≤ k)
    (hstop : validStops env (k - 1)) : (runSearchLoop env).2.1 ≤ k := by
  have h := searchLoopGo_count_le_of_stop env hstop 3 0 0 env.extractedQueries []
    (by omega) (by omega)
  unfold runSearchLoop
  omega

/-- Witness for C4: a validator satisfied on the first iteration stops the
loop after one iteration. -/
theorem searchLoop_stops_on_validator_stop_witness :
    1 ≤ 1 ∧ (runSearchLoop envStopEarly).2.1 ≤ 1 :=
  ⟨Nat.le_refl 1,
   searchLoop_stops_on_validator_stop envStopEarly 1 (Nat.le_refl 1)
     (Or.inr ⟨⟨true, "good", []⟩, rfl, rfl⟩)⟩

/-- Claim C5: after the retrieval loop, every URL extracted from a
`"Source: "` line of any accumulated result (text after the last marker,
stripped, non-empty and starting with "http") is in the collected source
list; when streaming succeeds and at least one source was collected, the
turn ends with a References block rendering exactly the first
`min 5 count` sources, 1-indexed, in discovery order. -/
theorem chat_references_block (st : AgentState) (env : ChatEnv) (input : String)
    (hws : st.use_web_search = true) (hok : env.streamError = none) :
    (∀ q r, (q, r) ∈ (runSearchLoop env).1 → ∀ line ∈ pySplit r "\n",
      pyContains "Source: " line = true →
      pyStrip ((pySplit line "Source: ").getLastD "") ≠ "" →
      pyStartswith "http" (pyStrip ((pySplit line "Source: ").getLastD "")) = true →
      pyStrip ((pySplit line "Source: ").getLastD "") ∈ chatSources env true) ∧
    (chatSources env true ≠ [] →
      (chat st env input).1 =
        chatPreEvents env true ++ env.streamChunks.filter (fun c => c ≠ "") ++
          ("\n\n---\n**References:**\n" :: numberedRefs 1 ((chatSources env true).take 5))) ∧
    (numberedRefs 1 ((chatSources env true).take 5)).length = min 5 (chatSources env true).length := by
  refine ⟨?_, ?_, ?_⟩
  · intro q r hm line hl hc hne hp
    unfold chatSources
    rw [if_pos rfl]
    cases hemp : (runSearchLoop env).1.isEmpty with
    | true =>
      rw [List.isEmpty_iff] at hemp
      rw [hemp] at hm
      simp at hm
    | false =>
      rw [if_neg (by simp [hemp])]
      exact mem_extractSources hm hl hc hne hp
  · intro hsrc
    have hsrc' : (chatSources env true).isEmpty = false := by
      cases hsl : chatSources env true with
      | nil => exact absurd hsl hsrc
      | cons a l => rfl
    rw [← refEvents_eq_numberedRefs]
    simp [chat, hws, hok, hsrc']
  · rw [numberedRefs_length, List.length_take]

/-- Witness for C5: a searched turn whose single result carries the source
`http://a` ends with the References block for it. -/
theorem chat_references_block_witness :
    (chat agentWeb envRefs "hi").1 =
      chatPreEvents envRefs true ++ envRefs.streamChunks.filter (fun c => c ≠ "") ++
        ("\n\n---\n**References:**\n" :: numberedRefs 1 ((chatSources envRefs true).take 5)) :=
  (chat_references_block agentWeb envRefs "hi" rfl rfl).2.1 (by decide)

/-- Claim C6: an exception in the streaming phase yields the events up to
the failure followed by exactly one trailing error fragment, and leaves
`history` holding only the user message (odd length); a successful stream
appends both the user and the accumulated assistant message (even
length). -/
theorem chat_stream_error_contained (st : AgentState) (env : ChatEnv) (input : String) :
    (∀ e, env.streamError = some e →
      (chat st env input).1 =
        chatPreEvents env st.use_web_search ++ env.streamChunks.filter (fun c => c ≠ "") ++
          ["\n[Error: " ++ e ++ "]"] ∧
      (chat st env input).2.history = [Message.human input] ∧
      (chat st env input).2.history.length % 2 = 1) ∧
    (env.streamError = none →
      (chat st env input).2.history =
        [Message.human input,
         Message.ai (joinSep "" (env.streamChunks.filter (fun c => c ≠ "")))] ∧
      (chat st env input).2.history.length % 2 = 0) := by
  constructor
  · intro e he
    unfold chat
    rw [he]
    exact ⟨rfl, rfl, rfl⟩
  · intro he
    have hh : (chat st env input).2.history =
        [Message.human input,
         Message.ai (joinSep "" (env.streamChunks.filter (fun c => c ≠ "")))] := by
      unfold chat
      rw [he]
    exact ⟨hh, by rw [hh]; simp⟩

/-- Witness for C6: a stream raising after one chunk leaves a single user
message in history and a trailing error fragment in the events. -/
theorem chat_stream_error_contained_witness :
    (chat agentWeb envErr "hi").2.history = [Message.human "hi"] ∧
    (chat agentWeb envErr "hi").1 =
      chatPreEvents envErr agentWeb.use_web_search ++
        envErr.streamChunks.filter (fun c => c ≠ "") ++ ["\n[Error: " ++ "boom" ++ "]"] :=
  ⟨((chat_stream_error_contained agentWeb envErr "hi").1 "boom" rfl).2.1,
   ((chat_stream_error_contained agentWeb envErr "hi").1 "boom" rfl).1⟩

/-- Claim C7: a turn with web search disabled yields exactly the offline
stage marker, the non-empty stream chunks, and one trailing offline
advisory — and its events do not depend on any search-related field of
the environment. -/
theorem chat_offline_turn (st : AgentState) (env : ChatEnv) (input : String)
    (hws : st.use_web_search = false) (hok : env.streamError = none) :
    (chat st env input).1 =
      "[STAGE]Generating response (offline)...\n" ::
        (env.streamChunks.filter (fun c => c ≠ "") ++ [offlineNotice]) ∧
    (∀ env' : ChatEnv, env'.streamChunks = env.streamChunks →
      env'.streamError = env.streamError →
      (chat st env' input).1 = (chat st env input).1) := by
  have key : ∀ env0 : ChatEnv, env0.streamError = none →
      (chat st env0 input).1 =
        "[STAGE]Generating response (offline)...\n" ::
          (env0.streamChunks.filter (fun c => c ≠ "") ++ [offlineNotice]) := by
    intro env0 h0
    simp [chat, chatPreEvents, hws, h0]
  refine ⟨key env hok, ?_⟩
  intro env' h1 h2
  rw [key env' (h2.trans hok), key env hok, h1]

/-- Witness for C7: an offline turn over the erroring search environment
still emits only the offline stage, the chunks, and the advisory. -/
theorem chat_offline_turn_witness :
    (chat agentOffline envRefs "ping").1 =
      "[STAGE]Generating response (offline)...\n" ::
        (envRefs.streamChunks.filter (fun c => c ≠ "") ++ [offlineNotice]) :=
  (chat_offline_turn agentOffline envRefs "ping" rfl rfl).1

end DevilAgent
